import Mathlib

/-!
Shallow embedding of the training core of the image-captioning repository
(src/image_captioning/training.py and src/image_captioning/dataset.py).

Tensors are lists of rationals or of natural-number token ids; the encoder,
decoder, tokenizer and optimizer are opaque deterministic functions bundled
in a `Model` record (the spec treats them as "opaque differentiable functions
with a fixed call contract").  The TensorFlow checkpoint manager is an
external collaborator; it is modelled from the spec as a list-backed store.
Python exceptions are modelled with `Except String` / an `error` field.
-/

namespace ImageCaptioning

/-- tf.reduce_mean on a vector: sum divided by length (0 when empty, which in
TensorFlow would be NaN; theorems that depend on the mean therefore assume a
nonempty batch where it matters). -/
def reduce_mean (l : List ℚ) : ℚ := l.sum / (l.length : ℚ)

/-- Embedding of compute_loss (training.py lines 12-31): build the mask
(labels different from the pad id 0), evaluate the per-example loss function
on labels and predictions, cast the mask and multiply it elementwise into the
loss vector, then take the mean over all positions. -/
def compute_loss {P : Type} (labels : List ℕ) (predictions : P)
    (loss_function : List ℕ → P → List ℚ) : ℚ :=
  let mask : List ℚ := labels.map (fun l => if l = 0 then 0 else 1)
  let loss_ : List ℚ := loss_function labels predictions
  let masked : List ℚ := List.zipWith (fun x m => x * m) loss_ mask
  reduce_mean masked

/-- The spec formula for the masked loss (section 4.1 / section 8): the sum of
per-example losses at positions whose label is non-zero, divided by the full
batch size.  Stated from the spec wording, to be compared with
`compute_loss`. -/
def maskedLossSpec (labels : List ℕ) (losses : List ℚ) : ℚ :=
  (List.zipWith (fun l x => if l = 0 then (0 : ℚ) else x) labels losses).sum
    / (labels.length : ℚ)

/-- The model collaborator (spec section 6): encoder, decoder with its
reset_state, the start-of-sequence token id provided by the tokenizer, and the
gradient/optimizer update treated as one opaque deterministic function of the
current parameters, the batch and the accumulated loss.  `Θ` bundles encoder,
decoder and optimizer parameters/state. -/
structure Model (I F H P A Θ : Type) where
  encoder : Θ → I → F
  reset_state : Θ → ℕ → H
  decoder : Θ → List ℕ → F → H → P × H × A
  start_token : ℕ
  apply_gradients : Θ → I → List (List ℕ) → ℚ → Θ

/-- target.shape[1]: the caption length of the (rectangular) target batch. -/
def seqLen (target : List (List ℕ)) : ℕ :=
  match target with
  | [] => 0
  | row :: _ => row.length

/-- target[:, i]: column i of the target batch (0 past the row end, which the
loop never reaches on rectangular input). -/
def tensorCol (target : List (List ℕ)) (i : ℕ) : List ℕ :=
  target.map (fun row => row.getD i 0)

/-- The timestep loop of train_step (training.py lines 89-98), run over an
explicit list of timestep indices.  Carries (accumulated loss, decoder input,
hidden state) exactly as the source does, and additionally records the trace
of decoder invocations as (timestep, decoder input) pairs so that theorems can
speak about which timesteps are scored and with which inputs. -/
def decodeSteps {I F H P A Θ : Type} (m : Model I F H P A Θ) (θ : Θ)
    (loss_function : List ℕ → P → List ℚ) (features : F)
    (target : List (List ℕ)) :
    List ℕ → List ℕ → H → ℚ → ℚ × List ℕ × H × List (ℕ × List ℕ)
  | [], dec_input, hidden, loss => (loss, dec_input, hidden, [])
  | i :: rest, dec_input, hidden, loss =>
    let step := m.decoder θ dec_input features hidden
    let res := decodeSteps m θ loss_function features target rest
      (tensorCol target i) step.2.1
      (loss + compute_loss (tensorCol target i) step.1 loss_function)
    (res.1, res.2.1, res.2.2.1, (i, dec_input) :: res.2.2.2)

/-- Embedding of train_step (training.py lines 52-105): read the actual batch
size and sequence length off the target shape, reset the hidden state, build
the start-token decoder input, run the encoder once, unroll the timestep loop
over range(1, sequence_length), then compute total_loss = loss /
sequence_length and apply the gradient update.  When sequence_length = 0 the
accumulated loss is still the Python int 0 and the division raises
ZeroDivisionError. -/
def train_step {I F H P A Θ : Type} (m : Model I F H P A Θ) (θ : Θ)
    (loss_function : List ℕ → P → List ℚ) (img_tensor : I)
    (target : List (List ℕ)) : Except String (ℚ × ℚ × Θ) :=
  let actual_batch_size := target.length
  let sequence_length := seqLen target
  let hidden := m.reset_state θ actual_batch_size
  let dec_input := List.replicate actual_batch_size m.start_token
  let features := m.encoder θ img_tensor
  let res := decodeSteps m θ loss_function features target
    (List.range' 1 (sequence_length - 1)) dec_input hidden 0
  if sequence_length = 0 then
    Except.error "ZeroDivisionError: division by zero"
  else
    let loss := res.1
    let total_loss := loss / (sequence_length : ℚ)
    Except.ok (loss, total_loss, m.apply_gradients θ img_tensor target loss)

/-- The accumulated loss of one train_step (the value the loop leaves in
`loss`), as a projection of `decodeSteps` at the inputs train_step uses. -/
def accumulated_loss {I F H P A Θ : Type} (m : Model I F H P A Θ) (θ : Θ)
    (loss_function : List ℕ → P → List ℚ) (img_tensor : I)
    (target : List (List ℕ)) : ℚ :=
  (decodeSteps m θ loss_function (m.encoder θ img_tensor) target
    (List.range' 1 (seqLen target - 1))
    (List.replicate target.length m.start_token)
    (m.reset_state θ target.length) 0).1

/-- The trace of (timestep, decoder input) pairs of one train_step. -/
def decode_trace {I F H P A Θ : Type} (m : Model I F H P A Θ) (θ : Θ)
    (loss_function : List ℕ → P → List ℚ) (img_tensor : I)
    (target : List (List ℕ)) : List (ℕ × List ℕ) :=
  (decodeSteps m θ loss_function (m.encoder θ img_tensor) target
    (List.range' 1 (seqLen target - 1))
    (List.replicate target.length m.start_token)
    (m.reset_state θ target.length) 0).2.2.2

/-- Modelled from the spec: the checkpoint storage collaborator
(tf.train.Checkpoint / tf.train.CheckpointManager, an external library whose
code is not in src/).  Spec section 4.3 and 6: "a directory-backed store of
named, ordered snapshots", each snapshot a numbered tag together with the
saved encoder/decoder/optimizer state `Θ`, kept oldest first, with a
retention bound max_to_keep and a running save counter that numbers the
snapshots. -/
structure CkptStore (Θ : Type) where
  checkpoints : List (ℕ × Θ)
  max_to_keep : ℕ
  save_counter : ℕ

/-- The last k elements of a list (the k most recent snapshots). -/
def takeLast {α : Type} (k : ℕ) (l : List α) : List α :=
  (l.reverse.take k).reverse

/-- Modelled from the spec: save a snapshot under an explicit tag and
"atomically enforce retention — after save, at most K most-recent checkpoints
remain, oldest evicted first" (spec section 4.3). -/
def CkptStore.save_tagged {Θ : Type} (s : CkptStore Θ) (tag : ℕ) (θ : Θ) :
    CkptStore Θ :=
  { s with
    checkpoints := takeLast s.max_to_keep (s.checkpoints ++ [(tag, θ)])
    save_counter := s.save_counter + 1 }

/-- Modelled from the spec: ckpt_manager.save() with no explicit number tags
the snapshot with the incremented save counter. -/
def CkptStore.save {Θ : Type} (s : CkptStore Θ) (θ : Θ) : CkptStore Θ :=
  s.save_tagged (s.save_counter + 1) θ

/-- Modelled from the spec: ckpt_manager.latest_checkpoint is the most recent
snapshot, or none when the store is empty. -/
def CkptStore.latest_checkpoint {Θ : Type} (s : CkptStore Θ) :
    Option (ℕ × Θ) :=
  s.checkpoints.getLast?

/-- Embedding of get_checkpoint_manager (training.py lines 33-50): build a
manager over the checkpoint directory contents with the configured retention
bound; the save counter resumes from the latest stored tag. -/
def get_checkpoint_manager {Θ : Type} (disk : List (ℕ × Θ))
    (max_checkpoints : ℕ) : CkptStore Θ :=
  ⟨disk, max_checkpoints, ((disk.getLast?).map Prod.fst).getD 0⟩

/-- The restore/resume logic of fit (training.py lines 130-146): if a latest
checkpoint exists, restore its parameters, report did_resume = true and
start_epoch = the integer parsed from the checkpoint name suffix
(latest_checkpoint.split of the dash, last piece); otherwise did_resume =
false, start_epoch = 0 and the parameters are untouched (restore of None is a
no-op). -/
def restoreResume {Θ : Type} (s : CkptStore Θ) : Bool × ℕ × Option Θ :=
  match s.latest_checkpoint with
  | none => (false, 0, none)
  | some (tag, θ) => (true, tag, some θ)

/-- Fold ckpt_manager.save over a list of parameter snapshots, one save per
completed epoch. -/
def saveAll {Θ : Type} (s : CkptStore Θ) (ps : List Θ) : CkptStore Θ :=
  ps.foldl (fun acc θ => acc.save θ) s

/-- The tag sequence the auto-numbering save gives to successive snapshots,
starting after counter value c. -/
def taggedFrom {Θ : Type} (c : ℕ) : List Θ → List (ℕ × Θ)
  | [] => []
  | p :: ps => (c + 1, p) :: taggedFrom (c + 1) ps

/-- The dataset collaborator (spec section 6, dataset.py): an iterable of
(image feature batch, target token batch) pairs plus the instance count and
the configured batch size. -/
structure DataSetM (I : Type) where
  batches : List (I × List (List ℕ))
  num_instances : ℕ
  batch_size : ℕ

/-- Embedding of DataSet.setup (dataset.py line 48): num_batches =
num_instances // batch_size, floor division. -/
def DataSetM.num_batches {I : Type} (d : DataSetM I) : ℕ :=
  d.num_instances / d.batch_size

/-- Modelled from the spec: tf.data batching (external library).  With
drop_remainder the epoch yields floor(n / b) batches, without it the final
partial batch is kept as well, giving ceil(n / b) batches. -/
def numBatchesYielded (n b : ℕ) (drop_remainder : Bool) : ℕ :=
  if drop_remainder then n / b else (n + b - 1) / b

/-- The batch loop of one epoch (training.py lines 155-164): iterate the
dataset in order, run train_step on each batch threading the mutated
parameters, and accumulate total_loss as the running sum of the per-batch
t_loss values; a train_step exception aborts the epoch. -/
def runBatches {I F H P A Θ : Type} (m : Model I F H P A Θ)
    (loss_function : List ℕ → P → List ℚ) :
    Θ → List (I × List (List ℕ)) → ℚ → Except String (Θ × ℚ)
  | θ, [], total => .ok (θ, total)
  | θ, (img_tensor, target) :: rest, total =>
    match train_step m θ loss_function img_tensor target with
    | .error e => .error e
    | .ok (_loss, t_loss, θ1) => runBatches m loss_function θ1 rest (total + t_loss)

/-- The per-batch t_loss values of one epoch, as a list (used to state how
the epoch mean relates to the individual batch losses). -/
def batch_t_losses {I F H P A Θ : Type} (m : Model I F H P A Θ)
    (loss_function : List ℕ → P → List ℚ) :
    Θ → List (I × List (List ℕ)) → Except String (Θ × List ℚ)
  | θ, [] => .ok (θ, [])
  | θ, (img_tensor, target) :: rest =>
    match train_step m θ loss_function img_tensor target with
    | .error e => .error e
    | .ok (_loss, t_loss, θ1) =>
      match batch_t_losses m loss_function θ1 rest with
      | .error e => .error e
      | .ok (θf, ls) => .ok (θf, t_loss :: ls)

/-- The observable outcome of a fit run: the Python exception that ended it
(none when it ran to completion), the recorded per-epoch mean losses, the
final parameters, the checkpoint manager if one was ever constructed, and the
number of checkpoint saves performed. -/
structure FitOutcome (Θ : Type) where
  error : Option String
  batch_losses : List ℚ
  final_params : Θ
  mgr : Option (CkptStore Θ)
  saves : ℕ

/-- The epoch loop of fit (training.py lines 150-170): for each remaining
epoch run all batches, append total_loss / num_batches to batch_losses, then
call ckpt_manager.save().  When no checkpoint manager was ever constructed
(config.resume_from_checkpoint false) the save line raises NameError; a
train_step exception also ends the run.  Either way the state reached so far
is reported. -/
def runEpochs {I F H P A Θ : Type} (m : Model I F H P A Θ)
    (loss_function : List ℕ → P → List ℚ)
    (batches : List (I × List (List ℕ))) (num_batches : ℕ) :
    ℕ → Θ → Option (CkptStore Θ) → List ℚ → ℕ → FitOutcome Θ
  | 0, θ, mgr, losses, saves => ⟨none, losses, θ, mgr, saves⟩
  | n + 1, θ, mgr, losses, saves =>
    match runBatches m loss_function θ batches 0 with
    | .error e => ⟨some e, losses, θ, mgr, saves⟩
    | .ok (θ1, total) =>
      let losses1 := losses ++ [total / (num_batches : ℚ)]
      match mgr with
      | none =>
        ⟨some "NameError: name ckpt_manager is not defined", losses1, θ1,
          none, saves⟩
      | some mg =>
        runEpochs m loss_function batches num_batches n θ1
          (some (mg.save θ1)) losses1 (saves + 1)

/-- Embedding of fit (training.py lines 108-172): construct the checkpoint
manager and restore only when config.resume_from_checkpoint is set, determine
start_epoch from the restore outcome, then run the epochs
range(start_epoch, num_epochs). -/
def fit {I F H P A Θ : Type} (m : Model I F H P A Θ)
    (loss_function : List ℕ → P → List ℚ) (d : DataSetM I) (θ0 : Θ)
    (resume_from_checkpoint : Bool) (num_epochs max_checkpoints : ℕ)
    (disk : List (ℕ × Θ)) : FitOutcome Θ :=
  let init :=
    if resume_from_checkpoint then
      let mgr := get_checkpoint_manager disk max_checkpoints
      match restoreResume mgr with
      | (_, tag, some θr) => (some mgr, θr, tag)
      | (_, _, none) => (some mgr, θ0, 0)
    else (none, θ0, 0)
  runEpochs m loss_function d.batches d.num_batches
    (num_epochs - init.2.2) init.2.1 init.1 [] 0

/-- A concrete degenerate model instance used to evaluate the embedding on
small inputs: every opaque component is trivial. -/
def toyModel : Model Unit Unit Unit Unit Unit Unit where
  encoder := fun _ _ => ()
  reset_state := fun _ _ => ()
  decoder := fun _ _ _ _ => ((), (), ())
  start_token := 3
  apply_gradients := fun _ _ _ _ => ()

/-- A concrete model instance whose parameter state is a natural number that
the gradient update increments, used where witnesses need nontrivial
parameters. -/
def toyModelN : Model Unit Unit Unit Unit Unit ℕ where
  encoder := fun _ _ => ()
  reset_state := fun _ _ => ()
  decoder := fun _ _ _ _ => ((), (), ())
  start_token := 3
  apply_gradients := fun θ _ _ _ => θ + 1

/-- A concrete per-example loss function: loss 1 for every example. -/
def toyLF : List ℕ → Unit → List ℚ := fun labels _ => labels.map (fun _ => 1)

/-- A concrete dataset: 3 instances at batch size 2, yielding one full batch
and one partial batch. -/
def toyDataset : DataSetM Unit := ⟨[((), [[1, 1, 1]]), ((), [[1]])], 3, 2⟩

/-! ## Helper lemmas -/

/-- Multiplying a loss vector elementwise by the cast mask (labels different
from 0) zeroes exactly the padded positions. -/
lemma zipWith_mask_eq (ls : List ℕ) (xs : List ℚ) :
    List.zipWith (fun x m => x * m) xs (ls.map fun l => if l = 0 then (0 : ℚ) else 1)
      = List.zipWith (fun l x => if l = 0 then (0 : ℚ) else x) ls xs := by
  induction ls generalizing xs with
  | nil => simp
  | cons a ls ih =>
    cases xs with
    | nil => simp
    | cons x xs =>
      simp only [List.map_cons, List.zipWith_cons_cons, ih]
      by_cases h : a = 0 <;> simp [h]

/-- With all labels zero the masked loss vector sums to zero. -/
lemma zipWith_mask_sum_zero (ls : List ℕ) (xs : List ℚ) (h : ∀ l ∈ ls, l = 0) :
    (List.zipWith (fun l x => if l = 0 then (0 : ℚ) else x) ls xs).sum = 0 := by
  induction ls generalizing xs with
  | nil => simp
  | cons a ls ih =>
    cases xs with
    | nil => simp
    | cons x xs =>
      have ha : a = 0 := h a (by simp)
      simp only [List.zipWith_cons_cons, List.sum_cons, ha, if_pos rfl]
      rw [ih xs (fun l hl => h l (by simp [hl]))]
      simp

/-- The trace of the timestep loop over range(i, i+k): the timesteps in
order, the first one decoded from the passed-in decoder input, every later
timestep j decoded from the ground-truth column j-1 (teacher forcing). -/
lemma decodeSteps_trace {I F H P A Θ : Type} (m : Model I F H P A Θ) (θ : Θ)
    (lf : List ℕ → P → List ℚ) (features : F) (target : List (List ℕ)) :
    ∀ (k i : ℕ) (d : List ℕ) (hid : H) (l : ℚ),
    (decodeSteps m θ lf features target (List.range' i k) d hid l).2.2.2
      = (List.range' i k).map
          (fun j => (j, if j = i then d else tensorCol target (j - 1))) := by
  intro k
  induction k with
  | zero => intro i d hid l; simp [decodeSteps]
  | succ k ih =>
    intro i d hid l
    rw [List.range'_succ]
    simp only [decodeSteps, ih, List.map_cons, if_pos rfl]
    congr 1
    apply List.map_congr_left
    intro j hj
    rw [List.mem_range'] at hj
    obtain ⟨p, hp, rfl⟩ := hj
    have hne : i + 1 + 1 * p ≠ i := by omega
    rw [if_neg hne]
    by_cases hp0 : p = 0
    · subst hp0
      simp
    · have hne2 : i + 1 + 1 * p ≠ i + 1 := by omega
      rw [if_neg hne2]

/-- The retained suffix has length min k (length l). -/
lemma takeLast_length {α : Type} (k : ℕ) (l : List α) :
    (takeLast k l).length = min k l.length := by
  simp [takeLast]

/-- A list within the retention bound is kept whole. -/
lemma takeLast_of_length_le {α : Type} (k : ℕ) (l : List α)
    (h : l.length ≤ k) : takeLast k l = l := by
  rw [takeLast, List.take_of_length_le (by simpa using h), List.reverse_reverse]

/-- Re-truncating after appending is the same as truncating once at the
end: eviction of the oldest snapshots commutes with later saves. -/
lemma takeLast_absorb {α : Type} (k : ℕ) (l m : List α) :
    takeLast k (takeLast k l ++ m) = takeLast k (l ++ m) := by
  simp only [takeLast, List.reverse_append, List.reverse_reverse]
  congr 1
  rw [List.take_append_eq_append_take, List.take_append_eq_append_take,
    List.take_take]
  rw [inf_eq_left.mpr (Nat.sub_le k m.reverse.length)]

/-- Truncation to the k most recent snapshots (k at least 1) keeps the most
recent one. -/
lemma takeLast_getLast? {α : Type} (k : ℕ) (l : List α) (hk : 1 ≤ k)
    (hl : l ≠ []) : (takeLast k l).getLast? = l.getLast? := by
  obtain ⟨k2, rfl⟩ : ∃ k2, k = k2 + 1 := ⟨k - 1, by omega⟩
  rw [takeLast, List.getLast?_reverse]
  cases hrev : l.reverse with
  | nil => exact absurd (by simpa using congrArg List.reverse hrev) hl
  | cons a t =>
    rw [List.take_succ_cons, List.head?_cons, ← List.head?_reverse, hrev,
      List.head?_cons]

/-- Auto-numbering n snapshots yields n tags. -/
lemma taggedFrom_length {Θ : Type} (c : ℕ) (ps : List Θ) :
    (taggedFrom c ps).length = ps.length := by
  induction ps generalizing c with
  | nil => rfl
  | cons p ps ih => simp [taggedFrom, ih]

/-- Unfolding one step of saveAll. -/
lemma saveAll_cons {Θ : Type} (s : CkptStore Θ) (p : Θ) (ps : List Θ) :
    saveAll s (p :: ps) = saveAll (s.save p) ps := rfl

/-- The three fields of a store after one auto-numbered save. -/
lemma save_fields {Θ : Type} (s : CkptStore Θ) (p : Θ) :
    (s.save p).checkpoints
        = takeLast s.max_to_keep (s.checkpoints ++ [(s.save_counter + 1, p)])
    ∧ (s.save p).max_to_keep = s.max_to_keep
    ∧ (s.save p).save_counter = s.save_counter + 1 :=
  ⟨rfl, rfl, rfl⟩

/-- After any sequence of saves onto a store already within its retention
bound, the store holds exactly the most recent snapshots of the full
auto-numbered history, truncated to max_to_keep. -/
lemma saveAll_ckpts {Θ : Type} (ps : List Θ) : ∀ (s : CkptStore Θ),
    s.checkpoints.length ≤ s.max_to_keep →
    (saveAll s ps).checkpoints
        = takeLast s.max_to_keep (s.checkpoints ++ taggedFrom s.save_counter ps)
    ∧ (saveAll s ps).max_to_keep = s.max_to_keep := by
  induction ps with
  | nil =>
    intro s hs
    exact ⟨by simp [saveAll, taggedFrom, takeLast_of_length_le _ _ hs], rfl⟩
  | cons p ps ih =>
    intro s hs
    rw [saveAll_cons]
    have hlen : (s.save p).checkpoints.length ≤ (s.save p).max_to_keep := by
      rw [(save_fields s p).1, (save_fields s p).2.1, takeLast_length]
      omega
    obtain ⟨h1, h2⟩ := ih (s.save p) hlen
    rw [h1, (save_fields s p).1, (save_fields s p).2.1,
      (save_fields s p).2.2, takeLast_absorb]
    refine ⟨?_, by rw [h2, (save_fields s p).2.1]⟩
    congr 1
    simp [taggedFrom]

/-- When a manager exists and the epoch loop finishes without an exception,
every epoch performed exactly one checkpoint save. -/
lemma runEpochs_saves_of_no_error {I F H P A Θ : Type}
    (m : Model I F H P A Θ) (lf : List ℕ → P → List ℚ)
    (batches : List (I × List (List ℕ))) (nb : ℕ) :
    ∀ (n : ℕ) (θ : Θ) (mg : CkptStore Θ) (losses : List ℚ) (s0 : ℕ),
    (runEpochs m lf batches nb n θ (some mg) losses s0).error = none →
    (runEpochs m lf batches nb n θ (some mg) losses s0).saves = s0 + n := by
  intro n
  induction n with
  | zero => intro θ mg losses s0 _; simp [runEpochs]
  | succ n ih =>
    intro θ mg losses s0 he
    rw [runEpochs] at he ⊢
    cases hb : runBatches m lf θ batches 0 with
    | error e => rw [hb] at he; simp at he
    | ok r =>
      rw [hb] at he
      obtain ⟨θ1, total⟩ := r
      have h2 := ih θ1 (mg.save θ1) (losses ++ [total / (nb : ℚ)]) (s0 + 1) he
      show (runEpochs m lf batches nb n θ1 (some (mg.save θ1))
        (losses ++ [total / (nb : ℚ)]) (s0 + 1)).saves = s0 + (n + 1)
      rw [h2]
      omega

/-- On a batch with a nonzero sequence length train_step returns normally:
the accumulated loop loss, that loss divided by the sequence length, and the
updated parameters. -/
lemma train_step_ok {I F H P A Θ : Type} (m : Model I F H P A Θ) (θ : Θ)
    (lf : List ℕ → P → List ℚ) (img : I) (target : List (List ℕ))
    (h : seqLen target ≠ 0) :
    train_step m θ lf img target
      = .ok (accumulated_loss m θ lf img target,
             accumulated_loss m θ lf img target / (seqLen target : ℚ),
             m.apply_gradients θ img target
               (accumulated_loss m θ lf img target)) := by
  simp [train_step, accumulated_loss, h]

/-- When every batch has a nonzero sequence length the batch loop of an epoch
completes without an exception. -/
lemma runBatches_ok {I F H P A Θ : Type} (m : Model I F H P A Θ)
    (lf : List ℕ → P → List ℚ) :
    ∀ (batches : List (I × List (List ℕ))) (θ : Θ) (total : ℚ),
    (∀ b ∈ batches, seqLen b.2 ≠ 0) →
    ∃ θ1 tot, runBatches m lf θ batches total = .ok (θ1, tot) := by
  intro batches
  induction batches with
  | nil => intro θ total _; exact ⟨θ, total, rfl⟩
  | cons b rest ih =>
    intro θ total hb
    obtain ⟨img, target⟩ := b
    have hs : seqLen target ≠ 0 := hb (img, target) (by simp)
    obtain ⟨θ1, tot, hrec⟩ := ih (m.apply_gradients θ img target
      (accumulated_loss m θ lf img target))
      (total + accumulated_loss m θ lf img target / (seqLen target : ℚ))
      (fun x hx => hb x (by simp [hx]))
    refine ⟨θ1, tot, ?_⟩
    rw [runBatches, train_step_ok m θ lf img target hs]
    exact hrec

/-- Relates the per-batch t_loss list to the epoch batch loop: the list has
one entry per batch, and the loop returns the running total plus its sum. -/
lemma batch_t_losses_spec {I F H P A Θ : Type} (m : Model I F H P A Θ)
    (lf : List ℕ → P → List ℚ) :
    ∀ (batches : List (I × List (List ℕ))) (θ θf : Θ) (L : List ℚ),
    batch_t_losses m lf θ batches = .ok (θf, L) →
    L.length = batches.length
    ∧ ∀ (t0 : ℚ), runBatches m lf θ batches t0 = .ok (θf, t0 + L.sum) := by
  intro batches
  induction batches with
  | nil =>
    intro θ θf L h
    rw [batch_t_losses] at h
    injection h with h2
    injection h2 with hθ hL
    subst hθ
    subst hL
    exact ⟨rfl, fun t0 => by simp [runBatches]⟩
  | cons b rest ih =>
    intro θ θf L h
    obtain ⟨img, target⟩ := b
    rw [batch_t_losses] at h
    cases hts : train_step m θ lf img target with
    | error e => rw [hts] at h; cases h
    | ok r =>
      obtain ⟨loss, t_loss, θ1⟩ := r
      rw [hts] at h
      dsimp only at h
      cases hrec : batch_t_losses m lf θ1 rest with
      | error e => rw [hrec] at h; cases h
      | ok r2 =>
        obtain ⟨θf2, L2⟩ := r2
        rw [hrec] at h
        dsimp only at h
        injection h with h2
        injection h2 with hθ hL
        subst hθ
        subst hL
        obtain ⟨hlen, hsum⟩ := ih θ1 θf2 L2 hrec
        refine ⟨by simp [hlen], fun t0 => ?_⟩
        rw [runBatches, hts]
        dsimp only
        rw [hsum (t0 + t_loss), List.sum_cons, ← add_assoc]

/-- Ceiling division exceeds floor division by one exactly when the divisor
does not divide. -/
lemma ceil_div_of_not_dvd (n b : ℕ) (hb : 0 < b) (h : n % b ≠ 0) :
    (n + b - 1) / b = n / b + 1 := by
  have hn : n ≠ 0 := by rintro rfl; simp at h
  have h1 : n + b - 1 = (n - 1) + b := by omega
  rw [h1, Nat.add_div_right _ hb]
  have h2 : n - 1 + 1 = n := by omega
  have h3 := Nat.succ_div (n - 1) b
  rw [h2] at h3
  rw [h3]
  simp [Nat.dvd_iff_mod_eq_zero, h]

/-! ## Claims -/

/-- Claim C2: compute_loss returns the sum of per-example losses at positions
whose label is non-zero, divided by the full batch size (masked positions
contribute zero to the numerator but still count in the denominator), and an
all-zero label batch yields exactly 0.  The hypothesis says the loss function
produces one loss per example, the shape contract of
SparseCategoricalCrossentropy with reduction none. -/
theorem compute_loss_masked_mean {P : Type} (labels : List ℕ) (predictions : P)
    (loss_function : List ℕ → P → List ℚ)
    (hlen : (loss_function labels predictions).length = labels.length) :
    compute_loss labels predictions loss_function
      = maskedLossSpec labels (loss_function labels predictions)
    ∧ ((∀ l ∈ labels, l = 0) →
        compute_loss labels predictions loss_function = 0) := by
  constructor
  · simp only [compute_loss, maskedLossSpec, reduce_mean, zipWith_mask_eq,
      List.length_zipWith, hlen, min_self]
  · intro hz
    simp only [compute_loss, reduce_mean, zipWith_mask_eq,
      zipWith_mask_sum_zero _ _ hz, zero_div]

/-- Witness for claim C2 at a concrete batch: labels [1, 0], per-example
losses [2, 3]; the masked positions give (2 + 0) / 2 = 1 on both sides. -/
theorem compute_loss_masked_mean_witness :
    compute_loss [1, 0] () (fun _ _ => [2, 3])
      = maskedLossSpec [1, 0] ((fun (_ : List ℕ) (_ : Unit) => [(2 : ℚ), 3]) [1, 0] ())
    ∧ compute_loss [1, 0] () (fun _ _ => [2, 3]) = (1 : ℚ) := by
  refine ⟨(compute_loss_masked_mean [1, 0] () (fun _ _ => [2, 3]) rfl).1, ?_⟩
  simp [compute_loss, reduce_mean]

/-- Claim C1 (amended): for sequence_length at least 2 train_step returns the
accumulated loop loss together with total_loss = that loss divided by
sequence_length — not by sequence_length - 1 as the claim states. -/
theorem train_step_total_loss_divides_by_seq_len {I F H P A Θ : Type}
    (m : Model I F H P A Θ) (θ : Θ) (lf : List ℕ → P → List ℚ) (img : I)
    (target : List (List ℕ)) (h : 2 ≤ seqLen target) :
    train_step m θ lf img target
      = .ok (accumulated_loss m θ lf img target,
             accumulated_loss m θ lf img target / (seqLen target : ℚ),
             m.apply_gradients θ img target
               (accumulated_loss m θ lf img target)) :=
  train_step_ok m θ lf img target (by omega)

/-- Witness for claim C1 at a batch with sequence length 3. -/
theorem train_step_total_loss_divides_by_seq_len_witness :
    train_step toyModel () toyLF () [[1, 1, 1]]
      = .ok (accumulated_loss toyModel () toyLF () [[1, 1, 1]],
             accumulated_loss toyModel () toyLF () [[1, 1, 1]]
               / (seqLen [[1, 1, 1]] : ℚ),
             toyModel.apply_gradients () () [[1, 1, 1]]
               (accumulated_loss toyModel () toyLF () [[1, 1, 1]])) :=
  train_step_total_loss_divides_by_seq_len toyModel () toyLF () [[1, 1, 1]]
    (by norm_num [seqLen])

/-- Counterexample to claim C1 as stated: on a batch of one caption of length
3 the loop scores 2 timesteps and accumulates loss 2, yet the returned
total_loss is 2 / 3 (division by sequence_length), not 2 / (3 - 1) = 1
(division by the number of scored timesteps the claim asserts). -/
theorem train_step_total_loss_counterexample :
    accumulated_loss toyModel () toyLF () [[1, 1, 1]] = 2
    ∧ seqLen [[1, 1, 1]] = 3
    ∧ train_step toyModel () toyLF () [[1, 1, 1]] = .ok (2, 2 / 3, ())
    ∧ (2 : ℚ) / 3 ≠ 2 / ((3 : ℚ) - 1) := by
  refine ⟨?_, rfl, ?_, by norm_num⟩
  · simp [accumulated_loss, decodeSteps, compute_loss, reduce_mean, tensorCol,
      seqLen, toyModel, toyLF]
    norm_num
  · simp [train_step, decodeSteps, compute_loss, reduce_mean, tensorCol,
      seqLen, toyModel, toyLF]
    norm_num

/-- Claim C4 (amended): for sequence_length at most 1 the timestep loop never
executes and the accumulated loss stays 0; with sequence_length = 1 the step
completes without error as a zero-loss step, but with sequence_length = 0 the
final normalization loss / sequence_length is 0 / 0 on Python ints and the
step raises ZeroDivisionError rather than completing. -/
theorem train_step_degenerate_seq {I F H P A Θ : Type}
    (m : Model I F H P A Θ) (θ : Θ) (lf : List ℕ → P → List ℚ) (img : I)
    (target : List (List ℕ)) (h : seqLen target ≤ 1) :
    accumulated_loss m θ lf img target = 0
    ∧ decode_trace m θ lf img target = []
    ∧ (seqLen target = 1 →
        train_step m θ lf img target
          = .ok (0, 0, m.apply_gradients θ img target 0))
    ∧ (seqLen target = 0 →
        train_step m θ lf img target
          = .error "ZeroDivisionError: division by zero") := by
  have h1 : seqLen target - 1 = 0 := by omega
  refine ⟨?_, ?_, ?_, ?_⟩
  · simp [accumulated_loss, h1, decodeSteps]
  · simp [decode_trace, h1, decodeSteps]
  · intro he
    simp [train_step, he, decodeSteps]
  · intro he
    simp [train_step, he]

/-- Witness for claim C4 at a batch of one caption of length 1: the loop is
skipped and the step returns a zero loss without raising. -/
theorem train_step_degenerate_seq_witness :
    accumulated_loss toyModel () toyLF () [[7]] = 0
    ∧ train_step toyModel () toyLF () [[7]] = .ok (0, 0, ()) := by
  have h := train_step_degenerate_seq toyModel () toyLF () [[7]]
    (by norm_num [seqLen])
  exact ⟨h.1, h.2.2.1 rfl⟩

/-- Counterexample to claim C4 as stated: a batch of one caption of length 0
has sequence_length 0, at most 1, yet train_step raises ZeroDivisionError
instead of completing without error. -/
theorem train_step_degenerate_counterexample :
    seqLen [([] : List ℕ)] ≤ 1
    ∧ train_step toyModel () toyLF () [[]]
        = .error "ZeroDivisionError: division by zero" := by
  refine ⟨by norm_num [seqLen], ?_⟩
  simp [train_step, seqLen]

/-- Claim C5: for sequence_length at least 2 the decoding loop runs exactly
over timesteps 1 .. sequence_length - 1 in ascending order, the first decoder
invocation consumes the start-token id broadcast to the actual batch size,
every later timestep j consumes the ground-truth column target[:, j-1] set by
teacher forcing at the previous timestep, and timestep 0 is never scored. -/
theorem train_step_teacher_forcing_trace {I F H P A Θ : Type}
    (m : Model I F H P A Θ) (θ : Θ) (lf : List ℕ → P → List ℚ) (img : I)
    (target : List (List ℕ)) (h : 2 ≤ seqLen target) :
    decode_trace m θ lf img target
      = (List.range' 1 (seqLen target - 1)).map
          (fun j => (j, if j = 1 then List.replicate target.length m.start_token
                        else tensorCol target (j - 1)))
    ∧ 0 ∉ (decode_trace m θ lf img target).map Prod.fst := by
  have h1 := decodeSteps_trace m θ lf (m.encoder θ img) target
    (seqLen target - 1) 1 (List.replicate target.length m.start_token)
    (m.reset_state θ target.length) 0
  refine ⟨h1, ?_⟩
  simp only [decode_trace]
  rw [h1, List.map_map]
  intro hmem
  simp only [List.mem_map, Function.comp] at hmem
  obtain ⟨j, hj, hj0⟩ := hmem
  rw [List.mem_range'] at hj
  obtain ⟨p, hp, rfl⟩ := hj
  simp at hj0

/-- Witness for claim C5 at the spec section 8 scenario batch
[[1,5,6,2],[1,7,2,0]]: the loop runs for timesteps 1, 2, 3 with the start
tokens then the ground-truth columns as decoder inputs. -/
theorem train_step_teacher_forcing_trace_witness :
    decode_trace toyModel () toyLF () [[1, 5, 6, 2], [1, 7, 2, 0]]
      = (List.range' 1 (seqLen [[1, 5, 6, 2], [1, 7, 2, 0]] - 1)).map
          (fun j => (j, if j = 1
            then List.replicate [[1, 5, 6, 2], [1, 7, 2, 0]].length toyModel.start_token
            else tensorCol [[1, 5, 6, 2], [1, 7, 2, 0]] (j - 1)))
    ∧ 0 ∉ (decode_trace toyModel () toyLF () [[1, 5, 6, 2], [1, 7, 2, 0]]).map Prod.fst :=
  train_step_teacher_forcing_trace toyModel () toyLF ()
    [[1, 5, 6, 2], [1, 7, 2, 0]] (by norm_num [seqLen])

/-- Claim C3: saving a snapshot tagged e and then restoring yields did_resume
= true, start_epoch = e (the tag parsed back from the checkpoint name
suffix), and parameters identical to those saved, provided the retention
bound keeps at least one snapshot. -/
theorem checkpoint_roundtrip {Θ : Type} (s : CkptStore Θ) (e : ℕ) (θ : Θ)
    (hK : 1 ≤ s.max_to_keep) :
    restoreResume (s.save_tagged e θ) = (true, e, some θ) := by
  unfold restoreResume CkptStore.latest_checkpoint CkptStore.save_tagged
  rw [takeLast_getLast? _ _ hK (by simp), List.getLast?_concat]

/-- Witness for claim C3: saving parameters 42 under tag 7 into an empty
store with retention 5 restores as (true, 7, some 42). -/
theorem checkpoint_roundtrip_witness :
    restoreResume ((⟨[], 5, 0⟩ : CkptStore ℕ).save_tagged 7 42)
      = (true, 7, some 42) :=
  checkpoint_roundtrip ⟨[], 5, 0⟩ 7 42 (by norm_num)

/-- Claim C6: with no checkpoint in the store, restore reports did_resume =
false and start_epoch = 0 without raising, and fit starts training fresh from
epoch 0 with the initial parameters. -/
theorem restore_empty_starts_fresh {I F H P A Θ : Type}
    (m : Model I F H P A Θ) (lf : List ℕ → P → List ℚ) (d : DataSetM I)
    (θ0 : Θ) (K c num_epochs : ℕ) :
    restoreResume (⟨[], K, c⟩ : CkptStore Θ) = (false, 0, none)
    ∧ fit m lf d θ0 true num_epochs K []
        = runEpochs m lf d.batches d.num_batches num_epochs θ0
            (some (get_checkpoint_manager [] K)) [] 0 := by
  constructor
  · rfl
  · rfl

/-- Claim C7: after any sequence of auto-numbered saves into a fresh store
with retention K, the store holds exactly the min(number of saves, K) most
recent snapshots, oldest evicted first; and an error-free epoch loop with a
constructed manager performs exactly one save per epoch. -/
theorem checkpoint_retention_and_per_epoch_save {I F H P A Θ : Type}
    (ps : List Θ) (K : ℕ) (m : Model I F H P A Θ)
    (lf : List ℕ → P → List ℚ) (batches : List (I × List (List ℕ)))
    (nb n : ℕ) (θ : Θ) (mg : CkptStore Θ) (losses : List ℚ) (s0 : ℕ)
    (he : (runEpochs m lf batches nb n θ (some mg) losses s0).error = none) :
    (saveAll ⟨[], K, 0⟩ ps).checkpoints = takeLast K (taggedFrom 0 ps)
    ∧ (saveAll ⟨[], K, 0⟩ ps).checkpoints.length = min ps.length K
    ∧ (runEpochs m lf batches nb n θ (some mg) losses s0).saves = s0 + n := by
  have h1 := (saveAll_ckpts ps ⟨[], K, 0⟩ (by simp)).1
  simp only [List.nil_append] at h1
  refine ⟨h1, ?_,
    runEpochs_saves_of_no_error m lf batches nb n θ mg losses s0 he⟩
  rw [h1, takeLast_length, taggedFrom_length, min_comm]

/-- Witness for claim C7: K + 3 = 5 saves with retention K = 2 leave the two
most recent snapshots (4, 40) and (5, 50); a 2-epoch error-free loop performs
2 saves. -/
theorem checkpoint_retention_and_per_epoch_save_witness :
    (saveAll ⟨[], 2, 0⟩ [10, 20, 30, 40, 50]).checkpoints
        = takeLast 2 (taggedFrom 0 [10, 20, 30, 40, 50])
    ∧ (saveAll ⟨[], 2, 0⟩ [10, 20, 30, 40, 50]).checkpoints.length
        = min [10, 20, 30, 40, 50].length 2
    ∧ (runEpochs toyModelN toyLF [((), [[1]])] 1 2 0
        (some ⟨[], 5, 0⟩) [] 0).saves = 0 + 2 :=
  checkpoint_retention_and_per_epoch_save [10, 20, 30, 40, 50] 2 toyModelN
    toyLF [((), [[1]])] 1 2 0 ⟨[], 5, 0⟩ [] 0 rfl

/-- Claim C8: with resume_from_checkpoint false and at least one epoch, fit
never constructs a checkpoint manager, yet the unconditional per-epoch save
at the first epoch's end references the undefined ckpt_manager name, so the
run fails with NameError and no checkpoint is ever saved.  The batches are
assumed nondegenerate so the failure is the NameError, not an earlier
train_step exception. -/
theorem fit_no_resume_name_error {I F H P A Θ : Type}
    (m : Model I F H P A Θ) (lf : List ℕ → P → List ℚ) (d : DataSetM I)
    (θ0 : Θ) (num_epochs max_checkpoints : ℕ) (disk : List (ℕ × Θ))
    (hn : 1 ≤ num_epochs)
    (hb : ∀ b ∈ d.batches, seqLen b.2 ≠ 0) :
    (fit m lf d θ0 false num_epochs max_checkpoints disk).error
        = some "NameError: name ckpt_manager is not defined"
    ∧ (fit m lf d θ0 false num_epochs max_checkpoints disk).saves = 0
    ∧ (fit m lf d θ0 false num_epochs max_checkpoints disk).mgr = none := by
  obtain ⟨k, rfl⟩ : ∃ k, num_epochs = k + 1 := ⟨num_epochs - 1, by omega⟩
  obtain ⟨θ1, tot, hok⟩ := runBatches_ok m lf d.batches θ0 0 hb
  simp only [fit, if_neg (Bool.false_ne_true), Nat.sub_zero]
  rw [runEpochs, hok]
  exact ⟨rfl, rfl, rfl⟩

/-- Witness for claim C8: a 1-epoch fit over the concrete dataset with
resume_from_checkpoint false ends in NameError with zero saves and no
manager. -/
theorem fit_no_resume_name_error_witness :
    (fit toyModel toyLF toyDataset () false 1 5 []).error
        = some "NameError: name ckpt_manager is not defined"
    ∧ (fit toyModel toyLF toyDataset () false 1 5 []).saves = 0
    ∧ (fit toyModel toyLF toyDataset () false 1 5 []).mgr = none :=
  fit_no_resume_name_error toyModel toyLF toyDataset () 1 5 [] (by norm_num)
    (by
      intro b hb
      simp only [toyDataset, List.mem_cons, List.not_mem_nil, or_false] at hb
      rcases hb with rfl | rfl <;> simp [seqLen])

/-- Claim C9: num_batches is the floor num_instances / batch_size; when
drop_remainder is false and batch_size does not divide num_instances the
dataset yields num_batches + 1 batches per epoch, there is one t_loss per
yielded batch, and the recorded epoch mean is the sum of those
num_batches + 1 batch losses divided by num_batches. -/
theorem epoch_batches_and_mean_loss {I F H P A Θ : Type} (d : DataSetM I)
    (m : Model I F H P A Θ) (lf : List ℕ → P → List ℚ) (θ θf : Θ)
    (L : List ℚ) (mg : CkptStore Θ)
    (hb : 0 < d.batch_size)
    (hnd : d.num_instances % d.batch_size ≠ 0)
    (hy : d.batches.length = numBatchesYielded d.num_instances d.batch_size false)
    (hok : batch_t_losses m lf θ d.batches = .ok (θf, L)) :
    d.num_batches = d.num_instances / d.batch_size
    ∧ numBatchesYielded d.num_instances d.batch_size false = d.num_batches + 1
    ∧ L.length = d.num_batches + 1
    ∧ (runEpochs m lf d.batches d.num_batches 1 θ (some mg) [] 0).batch_losses
        = [L.sum / (d.num_batches : ℚ)] := by
  obtain ⟨hlen, hsum⟩ := batch_t_losses_spec m lf d.batches θ θf L hok
  have h2 : numBatchesYielded d.num_instances d.batch_size false
      = d.num_batches + 1 := by
    simp only [numBatchesYielded, if_neg (Bool.false_ne_true),
      DataSetM.num_batches]
    exact ceil_div_of_not_dvd _ _ hb hnd
  refine ⟨rfl, h2, by rw [hlen, hy, h2], ?_⟩
  rw [runEpochs, hsum 0]
  simp [runEpochs]

/-- Witness for claim C9 on the concrete dataset of 3 instances at batch size
2: one full batch (t_loss 2/3) plus one partial batch (t_loss 0), and the
recorded epoch mean divides their sum by num_batches = 1. -/
theorem epoch_batches_and_mean_loss_witness :
    toyDataset.num_batches = toyDataset.num_instances / toyDataset.batch_size
    ∧ numBatchesYielded toyDataset.num_instances toyDataset.batch_size false
        = toyDataset.num_batches + 1
    ∧ [(2 : ℚ) / 3, 0].length = toyDataset.num_batches + 1
    ∧ (runEpochs toyModel toyLF toyDataset.batches toyDataset.num_batches 1 ()
        (some ⟨[], 5, 0⟩) [] 0).batch_losses
        = [([(2 : ℚ) / 3, 0]).sum / (toyDataset.num_batches : ℚ)] := by
  have hok : batch_t_losses toyModel toyLF () toyDataset.batches
      = .ok ((), [(2 : ℚ) / 3, 0]) := by
    simp [batch_t_losses, train_step, decodeSteps, compute_loss, reduce_mean,
      tensorCol, seqLen, toyModel, toyLF, toyDataset]
    norm_num
  exact epoch_batches_and_mean_loss toyDataset toyModel toyLF () ()
    [(2 : ℚ) / 3, 0] ⟨[], 5, 0⟩ (by norm_num [toyDataset])
    (by norm_num [toyDataset]) rfl hok

/-- Claim C10: train_step is a deterministic function of the model (with its
parameters), the loss function, the image features and the targets — two
invocations on equal inputs produce the same accumulated loss and the same
result triple (loss, total_loss, updated parameters). -/
theorem train_step_deterministic {I F H P A Θ : Type}
    (m₁ m₂ : Model I F H P A Θ) (θ₁ θ₂ : Θ)
    (lf₁ lf₂ : List ℕ → P → List ℚ) (img₁ img₂ : I)
    (t₁ t₂ : List (List ℕ))
    (hm : m₁ = m₂) (hθ : θ₁ = θ₂) (hlf : lf₁ = lf₂) (hi : img₁ = img₂)
    (ht : t₁ = t₂) :
    accumulated_loss m₁ θ₁ lf₁ img₁ t₁ = accumulated_loss m₂ θ₂ lf₂ img₂ t₂
    ∧ train_step m₁ θ₁ lf₁ img₁ t₁ = train_step m₂ θ₂ lf₂ img₂ t₂ := by
  subst hm hθ hlf hi ht
  exact ⟨rfl, rfl⟩

/-- Witness for claim C10 at a concrete batch: the double invocation on equal
inputs agrees. -/
theorem train_step_deterministic_witness :
    accumulated_loss toyModel () toyLF () [[1, 2]]
      = accumulated_loss toyModel () toyLF () [[1, 2]]
    ∧ train_step toyModel () toyLF () [[1, 2]]
      = train_step toyModel () toyLF () [[1, 2]] :=
  train_step_deterministic toyModel toyModel () () toyLF toyLF () ()
    [[1, 2]] [[1, 2]] rfl rfl rfl rfl rfl

end ImageCaptioning
